import Mathlib

/-!
# Verification of the PyOpenGL materials-and-lighting demo (`src/main.py`)

Shallow embedding of the mutable `Scene` object and its GLUT callbacks.
Python floats are modelled as exact rationals (`ℚ`); the geometry of the
torus (which uses `math.cos`/`math.sin`) is modelled over the reals.
Python lists indexed by constant subscripts are modelled as `List ℚ`
together with an indexing operation that returns `none` when the index is
out of range, mirroring Python's `IndexError`; every handler therefore
returns `Option Scene`, with `none` standing for a raised exception.
-/

/-- GLUT constant `GLUT_DOWN`. -/
def GLUT_DOWN : ℕ := 0

/-- GLUT constant `GLUT_LEFT_BUTTON`. -/
def GLUT_LEFT_BUTTON : ℕ := 0

/-- GLUT constant `GLUT_MIDDLE_BUTTON`. -/
def GLUT_MIDDLE_BUTTON : ℕ := 1

/-- GLUT constant `GLUT_KEY_UP`. -/
def GLUT_KEY_UP : ℕ := 101

/-- GLUT constant `GLUT_KEY_DOWN`. -/
def GLUT_KEY_DOWN : ℕ := 103

/-- The mutable state held by the `Scene` object (`Scene.__init__`,
`src/main.py` lines 74-95).  Fields that only hold GL resources
(`texture`) are kept as data without GL semantics. -/
structure Scene where
  alpha : ℚ
  alpha_direction : ℚ
  light_pos : List ℚ
  light_intensity : ℚ
  light_color : List ℚ
  camera_distance : ℚ
  camera_rot_x : ℚ
  camera_rot_y : ℚ
  camera_pos : List ℚ
  mouse_button : Option ℕ
  mouse_prev_pos : Option (ℤ × ℤ)
  show_help : Bool
  deriving Repr, DecidableEq

/-- The initial state built by `Scene.__init__`. -/
def initScene : Scene :=
  { alpha := 0.9
    alpha_direction := -0.001
    light_pos := [0.0, 2.0, 2.0, 1.0]
    light_intensity := 1.0
    light_color := [1.0, 1.0, 1.0]
    camera_distance := 5.0
    camera_rot_x := 30.0
    camera_rot_y := 0.0
    camera_pos := [0.0, 0.0, 0.0]
    mouse_button := none
    mouse_prev_pos := none
    show_help := true }

/-- Python's `l[i] = f(l[i])` on a list: read index `i` (raising
`IndexError`, i.e. `none`, when out of range) and write back `f` of it. -/
def listModify (l : List ℚ) (i : ℕ) (f : ℚ → ℚ) : Option (List ℚ) :=
  match l.get? i with
  | some v => some (l.set i (f v))
  | none => none

/-- `Scene.keyboard` (`src/main.py` lines 319-367).  The `key` argument is
the byte string GLUT passes; `x`, `y` are unused by the Python code.  The
trailing `update_light` / `glutPostRedisplay` calls do not modify the
scene state. -/
def Scene.keyboard (s : Scene) (key : String) : Option Scene :=
  let movement_step : ℚ := 0.5
  let color_step : ℚ := 0.1
  if key = "w" then
    (listModify s.light_pos 2 (fun v => v - movement_step)).map
      (fun l => { s with light_pos := l })
  else if key = "s" then
    (listModify s.light_pos 2 (fun v => v + movement_step)).map
      (fun l => { s with light_pos := l })
  else if key = "a" then
    (listModify s.light_pos 0 (fun v => v - movement_step)).map
      (fun l => { s with light_pos := l })
  else if key = "d" then
    (listModify s.light_pos 0 (fun v => v + movement_step)).map
      (fun l => { s with light_pos := l })
  else if key = "q" then
    some { s with light_intensity := min 1.0 (s.light_intensity + color_step) }
  else if key = "e" then
    some { s with light_intensity := max 0.0 (s.light_intensity - color_step) }
  else if key = "r" then
    (listModify s.light_color 0 (fun v => min 1.0 (v + color_step))).map
      (fun l => { s with light_color := l })
  else if key = "R" then
    (listModify s.light_color 0 (fun v => max 0.0 (v - color_step))).map
      (fun l => { s with light_color := l })
  else if key = "g" then
    (listModify s.light_color 1 (fun v => min 1.0 (v + color_step))).map
      (fun l => { s with light_color := l })
  else if key = "G" then
    (listModify s.light_color 1 (fun v => max 0.0 (v - color_step))).map
      (fun l => { s with light_color := l })
  else if key = "b" then
    (listModify s.light_color 2 (fun v => min 1.0 (v + color_step))).map
      (fun l => { s with light_color := l })
  else if key = "B" then
    (listModify s.light_color 2 (fun v => max 0.0 (v - color_step))).map
      (fun l => { s with light_color := l })
  else if key = "h" then
    some { s with show_help := !s.show_help }
  else
    some s

/-- `Scene.special` (`src/main.py` lines 369-375): arrows move the light
vertically. -/
def Scene.special (s : Scene) (key : ℕ) : Option Scene :=
  if key = GLUT_KEY_UP then
    (listModify s.light_pos 1 (fun v => v + 0.5)).map
      (fun l => { s with light_pos := l })
  else if key = GLUT_KEY_DOWN then
    (listModify s.light_pos 1 (fun v => v - 0.5)).map
      (fun l => { s with light_pos := l })
  else
    some s

/-- `Scene.mouse` (`src/main.py` lines 377-383). -/
def Scene.mouse (s : Scene) (button : ℕ) (st : ℕ) (x y : ℤ) : Option Scene :=
  if st = GLUT_DOWN then
    some { s with mouse_button := some button, mouse_prev_pos := some (x, y) }
  else
    some { s with mouse_button := none }

/-- `Scene.motion` (`src/main.py` lines 385-402). -/
def Scene.motion (s : Scene) (x y : ℤ) : Option Scene :=
  match s.mouse_prev_pos with
  | none => some { s with mouse_prev_pos := some (x, y) }
  | some (px, py) =>
    let dx : ℤ := x - px
    let dy : ℤ := y - py
    let s1 : Option Scene :=
      if s.mouse_button = some GLUT_LEFT_BUTTON then
        some { s with
          camera_rot_y := s.camera_rot_y + (dx : ℚ) * 0.5
          camera_rot_x := s.camera_rot_x + (dy : ℚ) * 0.5 }
      else if s.mouse_button = some GLUT_MIDDLE_BUTTON then
        (listModify s.camera_pos 0 (fun v => v + (dx : ℚ) * 0.01)).bind
          (fun l0 =>
            (listModify l0 1 (fun v => v - (dy : ℚ) * 0.01)).map
              (fun l1 => { s with camera_pos := l1 }))
      else
        some s
    s1.map (fun s2 => { s2 with mouse_prev_pos := some (x, y) })

/-- `Scene.mouse_wheel` (`src/main.py` lines 404-408). -/
def Scene.mouse_wheel (s : Scene) (wheel : ℤ) (direction : ℤ) (x y : ℤ) :
    Option Scene :=
  let d1 := s.camera_distance - (direction : ℚ)
  some { s with camera_distance := max 2.0 (min 20.0 d1) }

/-- The state mutation performed by `Scene.display` (`src/main.py`
lines 303-306): advance the cube transparency and bounce its direction.
All other statements in `display` only issue GL drawing calls and read
the state. -/
def Scene.displayStep (s : Scene) : Scene :=
  let alpha := s.alpha + s.alpha_direction
  let alpha_direction :=
    if alpha ≤ 0.5 ∨ 0.9 ≤ alpha then s.alpha_direction * (-1)
    else s.alpha_direction
  { s with alpha := alpha, alpha_direction := alpha_direction }

/-- One input event, covering every callback registered in `main`. -/
inductive Event where
  | keyboard (key : String) (x y : ℤ)
  | special (key : ℕ) (x y : ℤ)
  | mouse (button : ℕ) (st : ℕ) (x y : ℤ)
  | motion (x y : ℤ)
  | wheel (w : ℤ) (direction : ℤ) (x y : ℤ)
  | display
  deriving Repr, DecidableEq

/-- Dispatch one event to its handler. -/
def step (s : Scene) : Event → Option Scene
  | .keyboard key _ _ => s.keyboard key
  | .special key _ _ => s.special key
  | .mouse button st x y => s.mouse button st x y
  | .motion x y => s.motion x y
  | .wheel w direction x y => s.mouse_wheel w direction x y
  | .display => some s.displayStep

/-- Run a sequence of events; a raised exception (`none`) aborts the run. -/
def run (s : Scene) : List Event → Option Scene
  | [] => some s
  | e :: es => (step s e).bind (fun s2 => run s2 es)

/-- Events that are wheel events. -/
def Event.isWheel : Event → Bool
  | .wheel _ _ _ _ => true
  | _ => false

/-- Events that are keyboard events with the given key. -/
def Event.isKey (e : Event) (k : String) : Bool :=
  match e with
  | .keyboard k2 _ _ => k2 == k
  | _ => false

/-- The light parameters `Scene.update_light` (`src/main.py` lines 247-259)
pushes into the GL state with `glLightfv`. -/
structure LightParams where
  position : List ℚ
  diffuse : List ℚ
  specular : List ℚ
  deriving Repr, DecidableEq

/-- `Scene.update_light`: position is `light_pos`, and both diffuse and
specular are the Python list comprehension
`[c * self.light_intensity for c in self.light_color]`. -/
def Scene.update_light (s : Scene) : LightParams :=
  { position := s.light_pos
    diffuse := s.light_color.map (fun c => c * s.light_intensity)
    specular := s.light_color.map (fun c => c * s.light_intensity) }

/-- The fallback checkerboard built in the `except` branch of
`Scene.load_texture` (`src/main.py` lines 126-133): a `64 * 64` flat
row-major pixel array where the loop writes `[c, c, c]` at flat index
`i * 64 + j`, with `c = 255` when `(i + j) % 2 == 0` and `c = 0`
otherwise.  Each flat index is written exactly once, so the array equals
this row-major list of pixels. -/
def checkerboard : List (List ℕ) :=
  (List.range 64).bind (fun i =>
    (List.range 64).map (fun j =>
      let c : ℕ := if (i + j) % 2 = 0 then 255 else 0
      [c, c, c]))

/-- The result of `PIL.Image.open(path).convert("RGB")` plus
`np.array(list(image.getdata()))`: a pixel list with its dimensions. -/
structure LoadedImage where
  pixels : List (List ℕ)
  width : ℕ
  height : ℕ

/-- What `Scene.load_texture` computes and returns. -/
structure TexResult where
  img_data : List (List ℕ)
  width : ℕ
  height : ℕ
  texture : ℕ

/-- `Scene.load_texture` (`src/main.py` lines 111-152).  `imgOpen` is the
outcome of `Image.open(path)`: `none` when it raises any exception, in
which case the handler prints a message and builds the checkerboard.
`newTex` is the fresh id returned by `glGenTextures(1)`; the remaining GL
calls only upload `img_data` and set texture parameters. -/
def load_texture (imgOpen : Option LoadedImage) (newTex : ℕ) : TexResult :=
  match imgOpen with
  | some im =>
    { img_data := im.pixels, width := im.width, height := im.height
      texture := newTex }
  | none =>
    { img_data := checkerboard, width := 64, height := 64, texture := newTex }

/-- One vertex emission of the inner loop body of `Scene.draw_torus`
(`src/main.py` lines 208-229): texture coordinates, normal, position.
`torus_tex_coord` is the identity on `(u, v)`. -/
noncomputable def drawTorusVertex (i j k : ℕ) :
    (ℝ × ℝ) × (ℝ × ℝ × ℝ) × (ℝ × ℝ × ℝ) :=
  let majorR : ℝ := 0.5
  let minorR : ℝ := 0.2
  let majorSegs : ℕ := 32
  let minorSegs : ℕ := 32
  let theta : ℝ := ((i + k : ℕ) : ℝ) * 2.0 * Real.pi / (majorSegs : ℝ)
  let phi : ℝ := (j : ℝ) * 2.0 * Real.pi / (minorSegs : ℝ)
  let u : ℝ := ((i + k : ℕ) : ℝ) / (majorSegs : ℝ)
  let v : ℝ := (j : ℝ) / (minorSegs : ℝ)
  let x : ℝ := (majorR + minorR * Real.cos phi) * Real.cos theta
  let y : ℝ := (majorR + minorR * Real.cos phi) * Real.sin theta
  let z : ℝ := minorR * Real.sin phi
  ((u, v),
   (Real.cos theta * Real.cos phi, Real.sin theta * Real.cos phi,
    Real.sin phi),
   (x, y, z))

/-- The vertex strips emitted by `Scene.draw_torus`: one `GL_QUAD_STRIP`
per major segment `i`, containing the vertices for `j = 0..32` and
`k = 0..1` in emission order. -/
noncomputable def draw_torus :
    List (List ((ℝ × ℝ) × (ℝ × ℝ × ℝ) × (ℝ × ℝ × ℝ))) :=
  (List.range 32).map (fun i =>
    (List.range (32 + 1)).bind (fun j =>
      (List.range 2).map (fun k => drawTorusVertex i j k)))

/-- Vertex data as the parametric torus equation of the claim states it:
major radius `0.5`, minor radius `0.2`, `theta = (i+k)*2*pi/32`,
`phi = j*2*pi/32`. -/
noncomputable def torusSpecVertex (i j k : ℕ) :
    (ℝ × ℝ) × (ℝ × ℝ × ℝ) × (ℝ × ℝ × ℝ) :=
  let theta : ℝ := ((i + k : ℕ) : ℝ) * (2 * Real.pi) / 32
  let phi : ℝ := (j : ℝ) * (2 * Real.pi) / 32
  ((((i + k : ℕ) : ℝ) / 32, (j : ℝ) / 32),
   (Real.cos theta * Real.cos phi, Real.sin theta * Real.cos phi,
    Real.sin phi),
   ((0.5 + 0.2 * Real.cos phi) * Real.cos theta,
    (0.5 + 0.2 * Real.cos phi) * Real.sin theta,
    0.2 * Real.sin phi))

/-! ## Basic lemmas about the embedding -/

theorem listModify_of_lt (l : List ℚ) (i : ℕ) (f : ℚ → ℚ) (h : i < l.length) :
    listModify l i f = some (l.set i (f (l.get ⟨i, h⟩))) := by
  unfold listModify
  rw [List.get?_eq_get h]

theorem listModify_exists (l : List ℚ) (i : ℕ) (f : ℚ → ℚ) (h : i < l.length) :
    ∃ l2, listModify l i f = some l2 ∧ l2.length = l.length := by
  rw [listModify_of_lt l i f h]
  exact ⟨_, rfl, List.length_set _ _ _⟩

/-- `displayStep` advances `alpha` by `alpha_direction`. -/
theorem displayStep_alpha (s : Scene) :
    s.displayStep.alpha = s.alpha + s.alpha_direction := rfl

/-- `displayStep` bounces the direction exactly at the thresholds. -/
theorem displayStep_alpha_direction (s : Scene) :
    s.displayStep.alpha_direction =
      if s.alpha + s.alpha_direction ≤ 0.5 ∨ 0.9 ≤ s.alpha + s.alpha_direction
      then s.alpha_direction * (-1) else s.alpha_direction := rfl

/-! ## The reachability invariant -/

/-- The light colour list has exactly three components, each in `[0, 1]`. -/
def colorOK (l : List ℚ) : Prop := l.length = 3 ∧ ∀ c ∈ l, 0 ≤ c ∧ c ≤ 1

/-- Strengthened invariant for the transparency animation: `alpha` is a
multiple of `0.001` with numerator between `500` and `900`, and the
direction is `±0.001`, pointing inward at each boundary. -/
def alphaOK (s : Scene) : Prop :=
  ∃ k : ℕ, 500 ≤ k ∧ k ≤ 900 ∧ s.alpha = (k : ℚ) / 1000 ∧
    ((s.alpha_direction = -0.001 ∧ 501 ≤ k) ∨
     (s.alpha_direction = 0.001 ∧ k ≤ 899))

/-- Invariant satisfied by every reachable scene state. -/
def SceneInv (s : Scene) : Prop :=
  2 ≤ s.camera_distance ∧ s.camera_distance ≤ 20 ∧
  0 ≤ s.light_intensity ∧ s.light_intensity ≤ 1 ∧
  colorOK s.light_color ∧
  s.light_pos.length = 4 ∧ s.camera_pos.length = 3 ∧
  alphaOK s

theorem initScene_inv : SceneInv initScene := by
  refine ⟨by norm_num [initScene], by norm_num [initScene],
    by norm_num [initScene], by norm_num [initScene],
    ⟨rfl, ?_⟩, rfl, rfl, ⟨900, by omega, by omega, by norm_num [initScene], ?_⟩⟩
  · intro c hc
    simp only [initScene, List.mem_cons, List.not_mem_nil, or_false] at hc
    rcases hc with rfl | rfl | rfl <;> norm_num
  · left
    exact ⟨rfl, by omega⟩

theorem inv_set_light_pos (s : Scene) (h : SceneInv s) (i : ℕ) (f : ℚ → ℚ)
    (hi : i < 4) :
    ∃ s2, (listModify s.light_pos i f).map (fun l => { s with light_pos := l })
        = some s2 ∧ SceneInv s2 := by
  obtain ⟨h1, h2, h3, h4, hcol, hlp, hcp, hal⟩ := h
  have hlt : i < s.light_pos.length := by rw [hlp]; exact hi
  rw [listModify_of_lt _ _ _ hlt]
  refine ⟨_, rfl, h1, h2, h3, h4, hcol, ?_, hcp, hal⟩
  show (s.light_pos.set i _).length = 4
  rw [List.length_set]; exact hlp

theorem inv_set_light_color (s : Scene) (h : SceneInv s) (i : ℕ) (f : ℚ → ℚ)
    (hi : i < 3) (hf : ∀ v, 0 ≤ v → v ≤ 1 → 0 ≤ f v ∧ f v ≤ 1) :
    ∃ s2, (listModify s.light_color i f).map (fun l => { s with light_color := l })
        = some s2 ∧ SceneInv s2 := by
  obtain ⟨h1, h2, h3, h4, hcol, hlp, hcp, hal⟩ := h
  have hlt : i < s.light_color.length := by rw [hcol.1]; exact hi
  rw [listModify_of_lt _ _ _ hlt]
  refine ⟨_, rfl, h1, h2, h3, h4, ⟨?_, ?_⟩, hlp, hcp, hal⟩
  · show (s.light_color.set i _).length = 3
    rw [List.length_set]; exact hcol.1
  · intro c hc
    rcases List.mem_or_eq_of_mem_set hc with hmem | rfl
    · exact hcol.2 c hmem
    · have hv := hcol.2 _ (List.get_mem s.light_color i hlt)
      exact hf _ hv.1 hv.2

theorem keyboard_inv (s : Scene) (key : String) (h : SceneInv s) :
    ∃ s2, s.keyboard key = some s2 ∧ SceneInv s2 := by
  obtain ⟨h1, h2, h3, h4, hcol, hlp, hcp, hal⟩ := h
  have hmin : ∀ v : ℚ, 0 ≤ v → v ≤ 1 → 0 ≤ min 1.0 (v + 0.1) ∧ min 1.0 (v + 0.1) ≤ 1 := by
    intro v hv0 hv1
    constructor
    · apply le_min (by norm_num)
      have : (0:ℚ) ≤ 0.1 := by norm_num
      linarith
    · have : (1.0:ℚ) = 1 := by norm_num
      rw [this]
      exact min_le_left _ _
  have hmax : ∀ v : ℚ, 0 ≤ v → v ≤ 1 → 0 ≤ max 0.0 (v - 0.1) ∧ max 0.0 (v - 0.1) ≤ 1 := by
    intro v hv0 hv1
    constructor
    · have : (0.0:ℚ) = 0 := by norm_num
      rw [this]
      exact le_max_left _ _
    · apply max_le (by norm_num)
      have : (0:ℚ) ≤ 0.1 := by norm_num
      linarith
  have hinv : SceneInv s := ⟨h1, h2, h3, h4, hcol, hlp, hcp, hal⟩
  unfold Scene.keyboard
  by_cases hw : key = "w"
  · rw [if_pos hw]; exact inv_set_light_pos s hinv 2 _ (by omega)
  rw [if_neg hw]
  by_cases hs : key = "s"
  · rw [if_pos hs]; exact inv_set_light_pos s hinv 2 _ (by omega)
  rw [if_neg hs]
  by_cases ha : key = "a"
  · rw [if_pos ha]; exact inv_set_light_pos s hinv 0 _ (by omega)
  rw [if_neg ha]
  by_cases hd : key = "d"
  · rw [if_pos hd]; exact inv_set_light_pos s hinv 0 _ (by omega)
  rw [if_neg hd]
  by_cases hq : key = "q"
  · rw [if_pos hq]
    exact ⟨_, rfl, h1, h2, (hmin _ h3 h4).1, (hmin _ h3 h4).2, hcol, hlp, hcp, hal⟩
  rw [if_neg hq]
  by_cases he : key = "e"
  · rw [if_pos he]
    exact ⟨_, rfl, h1, h2, (hmax _ h3 h4).1, (hmax _ h3 h4).2, hcol, hlp, hcp, hal⟩
  rw [if_neg he]
  by_cases hr : key = "r"
  · rw [if_pos hr]; exact inv_set_light_color s hinv 0 _ (by omega) hmin
  rw [if_neg hr]
  by_cases hR : key = "R"
  · rw [if_pos hR]; exact inv_set_light_color s hinv 0 _ (by omega) hmax
  rw [if_neg hR]
  by_cases hg : key = "g"
  · rw [if_pos hg]; exact inv_set_light_color s hinv 1 _ (by omega) hmin
  rw [if_neg hg]
  by_cases hG : key = "G"
  · rw [if_pos hG]; exact inv_set_light_color s hinv 1 _ (by omega) hmax
  rw [if_neg hG]
  by_cases hb : key = "b"
  · rw [if_pos hb]; exact inv_set_light_color s hinv 2 _ (by omega) hmin
  rw [if_neg hb]
  by_cases hB : key = "B"
  · rw [if_pos hB]; exact inv_set_light_color s hinv 2 _ (by omega) hmax
  rw [if_neg hB]
  by_cases hh : key = "h"
  · rw [if_pos hh]
    exact ⟨_, rfl, h1, h2, h3, h4, hcol, hlp, hcp, hal⟩
  rw [if_neg hh]
  exact ⟨_, rfl, h1, h2, h3, h4, hcol, hlp, hcp, hal⟩

theorem special_inv (s : Scene) (key : ℕ) (h : SceneInv s) :
    ∃ s2, s.special key = some s2 ∧ SceneInv s2 := by
  unfold Scene.special
  by_cases hu : key = GLUT_KEY_UP
  · rw [if_pos hu]; exact inv_set_light_pos s h 1 _ (by omega)
  rw [if_neg hu]
  by_cases hd : key = GLUT_KEY_DOWN
  · rw [if_pos hd]; exact inv_set_light_pos s h 1 _ (by omega)
  rw [if_neg hd]
  exact ⟨s, rfl, h⟩

theorem mouse_inv (s : Scene) (button st : ℕ) (x y : ℤ) (h : SceneInv s) :
    ∃ s2, s.mouse button st x y = some s2 ∧ SceneInv s2 := by
  obtain ⟨h1, h2, h3, h4, hcol, hlp, hcp, hal⟩ := h
  unfold Scene.mouse
  by_cases hst : st = GLUT_DOWN
  · rw [if_pos hst]
    exact ⟨_, rfl, h1, h2, h3, h4, hcol, hlp, hcp, hal⟩
  · rw [if_neg hst]
    exact ⟨_, rfl, h1, h2, h3, h4, hcol, hlp, hcp, hal⟩

theorem motion_inv (s : Scene) (x y : ℤ) (h : SceneInv s) :
    ∃ s2, s.motion x y = some s2 ∧ SceneInv s2 := by
  obtain ⟨h1, h2, h3, h4, hcol, hlp, hcp, hal⟩ := h
  simp only [Scene.motion]
  cases hprev : s.mouse_prev_pos with
  | none => exact ⟨_, rfl, h1, h2, h3, h4, hcol, hlp, hcp, hal⟩
  | some p =>
    obtain ⟨px, py⟩ := p
    simp only []
    by_cases hleft : s.mouse_button = some GLUT_LEFT_BUTTON
    · rw [if_pos hleft]
      exact ⟨_, rfl, h1, h2, h3, h4, hcol, hlp, hcp, hal⟩
    rw [if_neg hleft]
    by_cases hmid : s.mouse_button = some GLUT_MIDDLE_BUTTON
    · rw [if_pos hmid]
      have hl0 : 0 < s.camera_pos.length := by rw [hcp]; omega
      obtain ⟨l0, he0, hlen0⟩ := listModify_exists s.camera_pos 0
        (fun v => v + ((x - px : ℤ) : ℚ) * 0.01) hl0
      rw [he0, Option.some_bind]
      have hl1 : 1 < l0.length := by rw [hlen0, hcp]; omega
      obtain ⟨l1, he1, hlen1⟩ := listModify_exists l0 1
        (fun v => v - ((y - py : ℤ) : ℚ) * 0.01) hl1
      rw [he1]
      refine ⟨_, rfl, h1, h2, h3, h4, hcol, hlp, ?_, hal⟩
      show l1.length = 3
      rw [hlen1, hlen0]; exact hcp
    rw [if_neg hmid]
    exact ⟨_, rfl, h1, h2, h3, h4, hcol, hlp, hcp, hal⟩

theorem mouse_wheel_inv (s : Scene) (w direction : ℤ) (x y : ℤ)
    (h : SceneInv s) :
    ∃ s2, s.mouse_wheel w direction x y = some s2 ∧ SceneInv s2 := by
  obtain ⟨h1, h2, h3, h4, hcol, hlp, hcp, hal⟩ := h
  unfold Scene.mouse_wheel
  refine ⟨_, rfl, ?_, ?_, h3, h4, hcol, hlp, hcp, hal⟩
  · show (2:ℚ) ≤ max 2.0 _
    have : (2.0:ℚ) = 2 := by norm_num
    rw [this]
    exact le_max_left _ _
  · show max 2.0 (min 20.0 _) ≤ (20:ℚ)
    apply max_le (by norm_num)
    have : (20.0:ℚ) = 20 := by norm_num
    rw [← this]
    exact min_le_left _ _

theorem alphaOK_displayStep (s : Scene) (h : alphaOK s) : alphaOK s.displayStep := by
  obtain ⟨k, hk5, hk9, ha, hd⟩ := h
  rcases hd with ⟨hd, hk'⟩ | ⟨hd, hk'⟩
  · -- direction is -0.001 and 501 ≤ k ≤ 900
    have hsum : s.alpha + s.alpha_direction = ((k : ℚ) - 1) / 1000 := by
      rw [ha, hd]; norm_num; ring
    rcases eq_or_lt_of_le hk' with hkeq | hklt
    · -- k = 501: bounce at the bottom
      refine ⟨500, le_refl 500, by omega, ?_, Or.inr ⟨?_, by omega⟩⟩
      · rw [displayStep_alpha, hsum, ← hkeq]; norm_num
      · rw [displayStep_alpha_direction, if_pos, hd]
        · norm_num
        · left; rw [hsum, ← hkeq]; norm_num
    · -- 501 < k: keep descending
      have hkq : (501 : ℚ) < (k : ℚ) := by exact_mod_cast hklt
      have hkq9 : (k : ℚ) ≤ 900 := by exact_mod_cast hk9
      have hcond : ¬(s.alpha + s.alpha_direction ≤ 0.5 ∨
          0.9 ≤ s.alpha + s.alpha_direction) := by
        rw [hsum]
        push_neg
        constructor
        · rw [lt_div_iff (by norm_num : (0:ℚ) < 1000)]
          norm_num
          linarith
        · rw [div_lt_iff (by norm_num : (0:ℚ) < 1000)]
          norm_num
          linarith
      refine ⟨k - 1, by omega, by omega, ?_, Or.inl ⟨?_, by omega⟩⟩
      · rw [displayStep_alpha, hsum]
        congr 1
        have : (1:ℕ) ≤ k := by omega
        push_cast [Nat.cast_sub this]
        ring
      · rw [displayStep_alpha_direction, if_neg hcond]; exact hd
  · -- direction is +0.001 and 500 ≤ k ≤ 899
    have hsum : s.alpha + s.alpha_direction = ((k : ℚ) + 1) / 1000 := by
      rw [ha, hd]; norm_num; ring
    rcases eq_or_lt_of_le hk' with hkeq | hklt
    · -- k = 899: bounce at the top
      refine ⟨900, by omega, le_refl 900, ?_, Or.inl ⟨?_, by omega⟩⟩
      · rw [displayStep_alpha, hsum, hkeq]; norm_num
      · rw [displayStep_alpha_direction, if_pos, hd]
        · norm_num
        · right; rw [hsum, hkeq]; norm_num
    · -- k < 899: keep ascending
      have hkq : (k : ℚ) < 899 := by exact_mod_cast hklt
      have hkq5 : (500 : ℚ) ≤ (k : ℚ) := by exact_mod_cast hk5
      have hcond : ¬(s.alpha + s.alpha_direction ≤ 0.5 ∨
          0.9 ≤ s.alpha + s.alpha_direction) := by
        rw [hsum]
        push_neg
        constructor
        · rw [lt_div_iff (by norm_num : (0:ℚ) < 1000)]
          norm_num
          linarith
        · rw [div_lt_iff (by norm_num : (0:ℚ) < 1000)]
          norm_num
          linarith
      refine ⟨k + 1, by omega, by omega, ?_, Or.inr ⟨?_, by omega⟩⟩
      · rw [displayStep_alpha, hsum]
        push_cast
        ring
      · rw [displayStep_alpha_direction, if_neg hcond]; exact hd

theorem displayStep_inv (s : Scene) (h : SceneInv s) : SceneInv s.displayStep := by
  obtain ⟨h1, h2, h3, h4, hcol, hlp, hcp, hal⟩ := h
  exact ⟨h1, h2, h3, h4, hcol, hlp, hcp, alphaOK_displayStep s hal⟩

theorem step_inv (s : Scene) (e : Event) (h : SceneInv s) :
    ∃ s2, step s e = some s2 ∧ SceneInv s2 := by
  cases e with
  | keyboard key x y => exact keyboard_inv s key h
  | special key x y => exact special_inv s key h
  | mouse button st x y => exact mouse_inv s button st x y h
  | motion x y => exact motion_inv s x y h
  | wheel w direction x y => exact mouse_wheel_inv s w direction x y h
  | display => exact ⟨_, rfl, displayStep_inv s h⟩

theorem run_inv (evs : List Event) : ∀ s : Scene, SceneInv s →
    ∃ s2, run s evs = some s2 ∧ SceneInv s2 := by
  induction evs with
  | nil => intro s h; exact ⟨s, rfl, h⟩
  | cons e es ih =>
    intro s h
    obtain ⟨s1, he1, h1⟩ := step_inv s e h
    obtain ⟨s2, he2, h2⟩ := ih s1 h1
    refine ⟨s2, ?_, h2⟩
    rw [run, he1, Option.some_bind, he2]

/-- Any state reached by `run` from a state satisfying the invariant
satisfies it as well. -/
theorem run_inv_of_eq (evs : List Event) (s s2 : Scene) (h : SceneInv s)
    (he : run s evs = some s2) : SceneInv s2 := by
  obtain ⟨s3, he3, h3⟩ := run_inv evs s h
  rw [he3] at he
  injection he with he
  rw [← he]
  exact h3

theorem alphaOK_bounds (s : Scene) (h : alphaOK s) :
    0.5 ≤ s.alpha ∧ s.alpha ≤ 0.9 ∧
    (s.alpha_direction = 0.001 ∨ s.alpha_direction = -0.001) := by
  obtain ⟨k, hk5, hk9, ha, hd⟩ := h
  have hkq5 : (500 : ℚ) ≤ (k : ℚ) := by exact_mod_cast hk5
  have hkq9 : (k : ℚ) ≤ 900 := by exact_mod_cast hk9
  refine ⟨?_, ?_, ?_⟩
  · rw [ha, le_div_iff (by norm_num : (0:ℚ) < 1000)]
    norm_num
    linarith
  · rw [ha, div_le_iff (by norm_num : (0:ℚ) < 1000)]
    norm_num
    linarith
  · rcases hd with ⟨hd, _⟩ | ⟨hd, _⟩
    · right; exact hd
    · left; exact hd

theorem keyboard_frame (s : Scene) (key : String) (s2 : Scene)
    (h : s.keyboard key = some s2) :
    s2.camera_distance = s.camera_distance ∧
    s2.alpha = s.alpha ∧ s2.alpha_direction = s.alpha_direction := by
  unfold Scene.keyboard at h
  by_cases hw : key = "w"
  · rw [if_pos hw] at h
    obtain ⟨l, -, rfl⟩ := Option.map_eq_some'.mp h; exact ⟨rfl, rfl, rfl⟩
  rw [if_neg hw] at h
  by_cases hs : key = "s"
  · rw [if_pos hs] at h
    obtain ⟨l, -, rfl⟩ := Option.map_eq_some'.mp h; exact ⟨rfl, rfl, rfl⟩
  rw [if_neg hs] at h
  by_cases ha : key = "a"
  · rw [if_pos ha] at h
    obtain ⟨l, -, rfl⟩ := Option.map_eq_some'.mp h; exact ⟨rfl, rfl, rfl⟩
  rw [if_neg ha] at h
  by_cases hd : key = "d"
  · rw [if_pos hd] at h
    obtain ⟨l, -, rfl⟩ := Option.map_eq_some'.mp h; exact ⟨rfl, rfl, rfl⟩
  rw [if_neg hd] at h
  by_cases hq : key = "q"
  · rw [if_pos hq] at h
    simp only [Option.some.injEq] at h; subst h; exact ⟨rfl, rfl, rfl⟩
  rw [if_neg hq] at h
  by_cases he : key = "e"
  · rw [if_pos he] at h
    simp only [Option.some.injEq] at h; subst h; exact ⟨rfl, rfl, rfl⟩
  rw [if_neg he] at h
  by_cases hr : key = "r"
  · rw [if_pos hr] at h
    obtain ⟨l, -, rfl⟩ := Option.map_eq_some'.mp h; exact ⟨rfl, rfl, rfl⟩
  rw [if_neg hr] at h
  by_cases hR : key = "R"
  · rw [if_pos hR] at h
    obtain ⟨l, -, rfl⟩ := Option.map_eq_some'.mp h; exact ⟨rfl, rfl, rfl⟩
  rw [if_neg hR] at h
  by_cases hg : key = "g"
  · rw [if_pos hg] at h
    obtain ⟨l, -, rfl⟩ := Option.map_eq_some'.mp h; exact ⟨rfl, rfl, rfl⟩
  rw [if_neg hg] at h
  by_cases hG : key = "G"
  · rw [if_pos hG] at h
    obtain ⟨l, -, rfl⟩ := Option.map_eq_some'.mp h; exact ⟨rfl, rfl, rfl⟩
  rw [if_neg hG] at h
  by_cases hb : key = "b"
  · rw [if_pos hb] at h
    obtain ⟨l, -, rfl⟩ := Option.map_eq_some'.mp h; exact ⟨rfl, rfl, rfl⟩
  rw [if_neg hb] at h
  by_cases hB : key = "B"
  · rw [if_pos hB] at h
    obtain ⟨l, -, rfl⟩ := Option.map_eq_some'.mp h; exact ⟨rfl, rfl, rfl⟩
  rw [if_neg hB] at h
  by_cases hh : key = "h"
  · rw [if_pos hh] at h
    simp only [Option.some.injEq] at h; subst h; exact ⟨rfl, rfl, rfl⟩
  rw [if_neg hh] at h
  simp only [Option.some.injEq] at h; subst h; exact ⟨rfl, rfl, rfl⟩

theorem keyboard_intensity_frame (s : Scene) (key : String) (s2 : Scene)
    (hq : key ≠ "q") (he : key ≠ "e") (h : s.keyboard key = some s2) :
    s2.light_intensity = s.light_intensity := by
  unfold Scene.keyboard at h
  by_cases hw : key = "w"
  · rw [if_pos hw] at h
    obtain ⟨l, -, rfl⟩ := Option.map_eq_some'.mp h; rfl
  rw [if_neg hw] at h
  by_cases hs : key = "s"
  · rw [if_pos hs] at h
    obtain ⟨l, -, rfl⟩ := Option.map_eq_some'.mp h; rfl
  rw [if_neg hs] at h
  by_cases ha : key = "a"
  · rw [if_pos ha] at h
    obtain ⟨l, -, rfl⟩ := Option.map_eq_some'.mp h; rfl
  rw [if_neg ha] at h
  by_cases hd : key = "d"
  · rw [if_pos hd] at h
    obtain ⟨l, -, rfl⟩ := Option.map_eq_some'.mp h; rfl
  rw [if_neg hd] at h
  rw [if_neg hq, if_neg he] at h
  by_cases hr : key = "r"
  · rw [if_pos hr] at h
    obtain ⟨l, -, rfl⟩ := Option.map_eq_some'.mp h; rfl
  rw [if_neg hr] at h
  by_cases hR : key = "R"
  · rw [if_pos hR] at h
    obtain ⟨l, -, rfl⟩ := Option.map_eq_some'.mp h; rfl
  rw [if_neg hR] at h
  by_cases hg : key = "g"
  · rw [if_pos hg] at h
    obtain ⟨l, -, rfl⟩ := Option.map_eq_some'.mp h; rfl
  rw [if_neg hg] at h
  by_cases hG : key = "G"
  · rw [if_pos hG] at h
    obtain ⟨l, -, rfl⟩ := Option.map_eq_some'.mp h; rfl
  rw [if_neg hG] at h
  by_cases hb : key = "b"
  · rw [if_pos hb] at h
    obtain ⟨l, -, rfl⟩ := Option.map_eq_some'.mp h; rfl
  rw [if_neg hb] at h
  by_cases hB : key = "B"
  · rw [if_pos hB] at h
    obtain ⟨l, -, rfl⟩ := Option.map_eq_some'.mp h; rfl
  rw [if_neg hB] at h
  by_cases hh : key = "h"
  · rw [if_pos hh] at h
    simp only [Option.some.injEq] at h; subst h; rfl
  rw [if_neg hh] at h
  simp only [Option.some.injEq] at h; subst h; rfl

theorem special_frame (s : Scene) (key : ℕ) (s2 : Scene)
    (h : s.special key = some s2) :
    s2.camera_distance = s.camera_distance ∧
    s2.light_intensity = s.light_intensity ∧
    s2.alpha = s.alpha ∧ s2.alpha_direction = s.alpha_direction := by
  unfold Scene.special at h
  by_cases hu : key = GLUT_KEY_UP
  · rw [if_pos hu] at h
    obtain ⟨l, -, rfl⟩ := Option.map_eq_some'.mp h; exact ⟨rfl, rfl, rfl, rfl⟩
  rw [if_neg hu] at h
  by_cases hd : key = GLUT_KEY_DOWN
  · rw [if_pos hd] at h
    obtain ⟨l, -, rfl⟩ := Option.map_eq_some'.mp h; exact ⟨rfl, rfl, rfl, rfl⟩
  rw [if_neg hd] at h
  simp only [Option.some.injEq] at h; subst h; exact ⟨rfl, rfl, rfl, rfl⟩

theorem mouse_frame (s : Scene) (button st : ℕ) (x y : ℤ) (s2 : Scene)
    (h : s.mouse button st x y = some s2) :
    s2.camera_distance = s.camera_distance ∧
    s2.light_intensity = s.light_intensity ∧
    s2.alpha = s.alpha ∧ s2.alpha_direction = s.alpha_direction := by
  unfold Scene.mouse at h
  by_cases hst : st = GLUT_DOWN
  · rw [if_pos hst] at h
    simp only [Option.some.injEq] at h; subst h; exact ⟨rfl, rfl, rfl, rfl⟩
  · rw [if_neg hst] at h
    simp only [Option.some.injEq] at h; subst h; exact ⟨rfl, rfl, rfl, rfl⟩

theorem motion_frame (s : Scene) (x y : ℤ) (s2 : Scene)
    (h : s.motion x y = some s2) :
    s2.camera_distance = s.camera_distance ∧
    s2.light_intensity = s.light_intensity ∧
    s2.alpha = s.alpha ∧ s2.alpha_direction = s.alpha_direction := by
  simp only [Scene.motion] at h
  cases hprev : s.mouse_prev_pos with
  | none =>
    rw [hprev] at h
    simp only [Option.some.injEq] at h; subst h; exact ⟨rfl, rfl, rfl, rfl⟩
  | some p =>
    obtain ⟨px, py⟩ := p
    rw [hprev] at h
    simp only [] at h
    obtain ⟨s1, hs1, rfl⟩ := Option.map_eq_some'.mp h
    by_cases hleft : s.mouse_button = some GLUT_LEFT_BUTTON
    · rw [if_pos hleft] at hs1
      simp only [Option.some.injEq] at hs1; subst hs1; exact ⟨rfl, rfl, rfl, rfl⟩
    rw [if_neg hleft] at hs1
    by_cases hmid : s.mouse_button = some GLUT_MIDDLE_BUTTON
    · rw [if_pos hmid] at hs1
      obtain ⟨l0, -, hs1⟩ := Option.bind_eq_some.mp hs1
      obtain ⟨l1, -, rfl⟩ := Option.map_eq_some'.mp hs1
      exact ⟨rfl, rfl, rfl, rfl⟩
    rw [if_neg hmid] at hs1
    simp only [Option.some.injEq] at hs1; subst hs1; exact ⟨rfl, rfl, rfl, rfl⟩

theorem mouse_wheel_frame (s : Scene) (w direction x y : ℤ) (s2 : Scene)
    (h : s.mouse_wheel w direction x y = some s2) :
    s2.light_intensity = s.light_intensity ∧
    s2.alpha = s.alpha ∧ s2.alpha_direction = s.alpha_direction := by
  unfold Scene.mouse_wheel at h
  simp only [Option.some.injEq] at h; subst h; exact ⟨rfl, rfl, rfl⟩

theorem step_camera_distance (s : Scene) (e : Event) (s2 : Scene)
    (hw : e.isWheel = false) (h : step s e = some s2) :
    s2.camera_distance = s.camera_distance := by
  cases e with
  | keyboard key x y => exact (keyboard_frame s key s2 h).1
  | special key x y => exact (special_frame s key s2 h).1
  | mouse button st x y => exact (mouse_frame s button st x y s2 h).1
  | motion x y => exact (motion_frame s x y s2 h).1
  | wheel w direction x y => exact absurd hw (by simp [Event.isWheel])
  | display =>
    simp only [step, Option.some.injEq] at h; subst h; rfl

theorem step_light_intensity (s : Scene) (e : Event) (s2 : Scene)
    (hq : e.isKey "q" = false) (he : e.isKey "e" = false)
    (h : step s e = some s2) :
    s2.light_intensity = s.light_intensity := by
  cases e with
  | keyboard key x y =>
    have hq2 : key ≠ "q" := by
      intro hc; rw [hc] at hq; simp [Event.isKey] at hq
    have he2 : key ≠ "e" := by
      intro hc; rw [hc] at he; simp [Event.isKey] at he
    exact keyboard_intensity_frame s key s2 hq2 he2 h
  | special key x y => exact (special_frame s key s2 h).2.1
  | mouse button st x y => exact (mouse_frame s button st x y s2 h).2.1
  | motion x y => exact (motion_frame s x y s2 h).2.1
  | wheel w direction x y => exact (mouse_wheel_frame s w direction x y s2 h).1
  | display =>
    simp only [step, Option.some.injEq] at h; subst h; rfl

theorem range_bind_map_length {α : Type} (n m : ℕ) (f : ℕ → ℕ → α) :
    ((List.range n).bind (fun a => (List.range m).map (f a))).length = n * m := by
  simp only [List.bind]
  induction n with
  | zero => simp
  | succ n ih =>
    rw [List.range_succ, List.flatMap_append, List.length_append, ih]
    simp [Nat.succ_mul]

theorem range_bind_map_get {α : Type} (m : ℕ) (f : ℕ → ℕ → α) :
    ∀ n i j : ℕ, i < n → j < m →
      ((List.range n).bind (fun a => (List.range m).map (f a))).get? (i * m + j)
        = some (f i j) := by
  intro n
  induction n with
  | zero => intro i j hi _; exact absurd hi (Nat.not_lt_zero i)
  | succ n ih =>
    intro i j hi hj
    have hlen : ∀ n2 : ℕ,
        ((List.range n2).bind (fun a => (List.range m).map (f a))).length
          = n2 * m := fun n2 => range_bind_map_length n2 m f
    simp only [List.bind] at hlen ih ⊢
    rw [List.range_succ, List.flatMap_append]
    by_cases hin : i < n
    · rw [List.get?_append]
      · exact ih i j hin hj
      · rw [hlen n]
        calc i * m + j < i * m + m := Nat.add_lt_add_left hj _
          _ = (i + 1) * m := (Nat.succ_mul i m).symm
          _ ≤ n * m := Nat.mul_le_mul_right m (by omega)
    · have hieq : i = n := by omega
      subst hieq
      rw [List.get?_append_right]
      · rw [hlen _, Nat.add_sub_cancel_left]
        simp only [List.flatMap_cons, List.flatMap_nil, List.append_nil]
        rw [List.get?_map, List.get?_range hj]
        rfl
      · rw [hlen _]
        exact Nat.le_add_right _ _

theorem checkerboard_get (i j : ℕ) (hi : i < 64) (hj : j < 64) :
    checkerboard.get? (i * 64 + j)
      = some (if (i + j) % 2 = 0 then [255, 255, 255] else [0, 0, 0]) := by
  have h := range_bind_map_get 64
    (fun a b => let c : ℕ := if (a + b) % 2 = 0 then 255 else 0; [c, c, c])
    64 i j hi hj
  have hceq : checkerboard.get? (i * 64 + j)
      = some (let c : ℕ := if (i + j) % 2 = 0 then 255 else 0; [c, c, c]) := h
  rw [hceq]
  by_cases hp : (i + j) % 2 = 0
  · simp [hp]
  · simp [hp]

theorem drawTorusVertex_eq (i j k : ℕ) :
    drawTorusVertex i j k = torusSpecVertex i j k := by
  simp only [drawTorusVertex, torusSpecVertex]
  have h32 : ((32 : ℕ) : ℝ) = 32 := by norm_num
  have hθ : ((i + k : ℕ) : ℝ) * 2.0 * Real.pi / ((32 : ℕ) : ℝ)
      = ((i + k : ℕ) : ℝ) * (2 * Real.pi) / 32 := by
    rw [h32]
    norm_num
    ring
  have hφ : ((j : ℕ) : ℝ) * 2.0 * Real.pi / ((32 : ℕ) : ℝ)
      = ((j : ℕ) : ℝ) * (2 * Real.pi) / 32 := by
    rw [h32]
    norm_num
    ring
  rw [hθ, hφ, h32]

/-! ## Claims -/

/-- **C1**: for every event sequence from the initial state
(`camera_distance = 5.0`) the `camera_distance` field stays in
`[2.0, 20.0]`; `mouse_wheel` sets it to
`max(2.0, min(20.0, old - direction))` for every wheel direction, and no
other handler modifies `camera_distance`. -/
theorem claim_C1_camera_distance_clamped :
    (∀ (evs : List Event) (s : Scene), run initScene evs = some s →
      2 ≤ s.camera_distance ∧ s.camera_distance ≤ 20) ∧
    (∀ (s : Scene) (w d x y : ℤ),
      s.mouse_wheel w d x y = some
        { s with camera_distance :=
                   max 2.0 (min 20.0 (s.camera_distance - (d : ℚ))) }) ∧
    (∀ (s : Scene) (e : Event) (s2 : Scene), e.isWheel = false →
      step s e = some s2 → s2.camera_distance = s.camera_distance) := by
  refine ⟨?_, fun s w d x y => rfl, ?_⟩
  · intro evs s h
    have hinv := run_inv_of_eq evs initScene s initScene_inv h
    exact ⟨hinv.1, hinv.2.1⟩
  · intro s e s2 hw h
    exact step_camera_distance s e s2 hw h

/-- Witness for C1 at concrete inputs. -/
theorem claim_C1_witness :
    (2 ≤ initScene.camera_distance ∧ initScene.camera_distance ≤ 20) ∧
    Scene.mouse_wheel initScene 0 7 0 0 = some
      { initScene with camera_distance :=
                         max 2.0 (min 20.0 (initScene.camera_distance - ((7 : ℤ) : ℚ))) } ∧
    initScene.displayStep.camera_distance = initScene.camera_distance :=
  ⟨claim_C1_camera_distance_clamped.1 [] initScene rfl,
   claim_C1_camera_distance_clamped.2.1 initScene 0 7 0 0,
   claim_C1_camera_distance_clamped.2.2 initScene Event.display
     initScene.displayStep rfl rfl⟩

/-- **C2**: for every event sequence from the initial state
(`light_intensity = 1.0`) the `light_intensity` field stays in
`[0.0, 1.0]`; key `q` sets it to `min(1.0, old + 0.1)`, key `e` to
`max(0.0, old - 0.1)`, and no other operation modifies it. -/
theorem claim_C2_light_intensity_clamped :
    (∀ (evs : List Event) (s : Scene), run initScene evs = some s →
      0 ≤ s.light_intensity ∧ s.light_intensity ≤ 1) ∧
    (∀ s : Scene, s.keyboard "q"
        = some { s with light_intensity := min 1.0 (s.light_intensity + 0.1) }) ∧
    (∀ s : Scene, s.keyboard "e"
        = some { s with light_intensity := max 0.0 (s.light_intensity - 0.1) }) ∧
    (∀ (s : Scene) (e : Event) (s2 : Scene),
      e.isKey "q" = false → e.isKey "e" = false → step s e = some s2 →
      s2.light_intensity = s.light_intensity) := by
  refine ⟨?_, fun s => rfl, fun s => rfl, ?_⟩
  · intro evs s h
    have hinv := run_inv_of_eq evs initScene s initScene_inv h
    exact ⟨hinv.2.2.1, hinv.2.2.2.1⟩
  · intro s e s2 hq he h
    exact step_light_intensity s e s2 hq he h

/-- Witness for C2 at concrete inputs. -/
theorem claim_C2_witness :
    (0 ≤ initScene.light_intensity ∧ initScene.light_intensity ≤ 1) ∧
    initScene.displayStep.light_intensity = initScene.light_intensity :=
  ⟨claim_C2_light_intensity_clamped.1 [] initScene rfl,
   claim_C2_light_intensity_clamped.2.2.2 initScene Event.display
     initScene.displayStep rfl rfl rfl⟩

/-- **C3**: from the initial state (`alpha = 0.9`,
`alpha_direction = -0.001`), after every run `alpha` lies in `[0.5, 0.9]`
and `alpha_direction` is `0.001` or `-0.001`; each `display` call adds
`alpha_direction` to `alpha` and negates `alpha_direction` exactly when
the new alpha is `≤ 0.5` or `≥ 0.9`. -/
theorem claim_C3_alpha_bounce :
    (∀ (evs : List Event) (s : Scene), run initScene evs = some s →
      0.5 ≤ s.alpha ∧ s.alpha ≤ 0.9 ∧
      (s.alpha_direction = 0.001 ∨ s.alpha_direction = -0.001)) ∧
    (∀ s : Scene, s.displayStep.alpha = s.alpha + s.alpha_direction) ∧
    (∀ s : Scene, s.displayStep.alpha_direction =
      if s.alpha + s.alpha_direction ≤ 0.5 ∨ 0.9 ≤ s.alpha + s.alpha_direction
      then -s.alpha_direction else s.alpha_direction) := by
  refine ⟨?_, fun s => rfl, ?_⟩
  · intro evs s h
    have hinv := run_inv_of_eq evs initScene s initScene_inv h
    exact alphaOK_bounds s hinv.2.2.2.2.2.2.2
  · intro s
    rw [displayStep_alpha_direction]
    by_cases hc : s.alpha + s.alpha_direction ≤ 0.5 ∨
        0.9 ≤ s.alpha + s.alpha_direction
    · rw [if_pos hc, if_pos hc]; ring
    · rw [if_neg hc, if_neg hc]

/-- Witness for C3 after one `display` call. -/
theorem claim_C3_witness :
    0.5 ≤ initScene.displayStep.alpha ∧ initScene.displayStep.alpha ≤ 0.9 ∧
    (initScene.displayStep.alpha_direction = 0.001 ∨
     initScene.displayStep.alpha_direction = -0.001) :=
  claim_C3_alpha_bounce.1 [Event.display] initScene.displayStep rfl

/-- **C5**: no input ever makes a handler fail: every run from the
initial state succeeds, and on every invariant-satisfying (in particular
every reachable) state every single event is handled without error. -/
theorem claim_C5_handlers_total :
    (∀ evs : List Event, (run initScene evs).isSome = true) ∧
    (∀ (s : Scene) (e : Event), SceneInv s → (step s e).isSome = true) := by
  constructor
  · intro evs
    obtain ⟨s2, he, -⟩ := run_inv evs initScene initScene_inv
    rw [he]; rfl
  · intro s e h
    obtain ⟨s2, he, -⟩ := step_inv s e h
    rw [he]; rfl

/-- Witness for C5 at concrete inputs. -/
theorem claim_C5_witness :
    (run initScene [Event.keyboard "w" 0 0, Event.motion 1 2]).isSome = true ∧
    (step initScene Event.display).isSome = true :=
  ⟨claim_C5_handlers_total.1 [Event.keyboard "w" 0 0, Event.motion 1 2],
   claim_C5_handlers_total.2 initScene Event.display initScene_inv⟩

/-- **C4**: when opening the image file raises, `load_texture` falls back
to the procedurally generated 64x64 checkerboard — pixel `(i, j)` (flat
index `i * 64 + j`) is `[255, 255, 255]` exactly when `i + j` is even and
`[0, 0, 0]` otherwise — and still returns the texture id instead of
propagating the exception. -/
theorem claim_C4_texture_fallback :
    (∀ newTex : ℕ,
      load_texture none newTex = { img_data := checkerboard, width := 64,
                                   height := 64, texture := newTex }) ∧
    (∀ i j : ℕ, i < 64 → j < 64 →
      checkerboard.get? (i * 64 + j)
        = some (if (i + j) % 2 = 0 then [255, 255, 255] else [0, 0, 0])) :=
  ⟨fun newTex => rfl, checkerboard_get⟩

/-- Witness for C4 at concrete inputs. -/
theorem claim_C4_witness :
    load_texture none 5 = { img_data := checkerboard, width := 64,
                            height := 64, texture := 5 } ∧
    checkerboard.get? (1 * 64 + 2)
      = some (if (1 + 2) % 2 = 0 then [255, 255, 255] else [0, 0, 0]) :=
  ⟨claim_C4_texture_fallback.1 5,
   claim_C4_texture_fallback.2 1 2 (by decide) (by decide)⟩

/-- **C6**: every vertex emitted by `draw_torus` is given by the
parametric torus equation with major radius `0.5`, minor radius `0.2`,
32 major and 32 minor segments: the emitted strips coincide with the map
of the parametric formula (position, normal and texture coordinates) over
the loop index ranges. -/
theorem claim_C6_torus_parametric :
    draw_torus = (List.range 32).map (fun i =>
      (List.range 33).bind (fun j =>
        (List.range 2).map (fun k => torusSpecVertex i j k))) := by
  simp only [draw_torus, drawTorusVertex_eq]

/-- **C7**: the keyboard handler on key `h` negates `show_help`, leaves
every other field unchanged, and applying it twice restores the original
state exactly. -/
theorem claim_C7_toggle_help :
    (∀ s : Scene, s.keyboard "h" = some { s with show_help := !s.show_help }) ∧
    (∀ s s2 : Scene, s.keyboard "h" = some s2 →
      s2.show_help = !s.show_help ∧ s2.light_pos = s.light_pos ∧
      s2.light_intensity = s.light_intensity ∧
      s2.light_color = s.light_color ∧
      s2.camera_distance = s.camera_distance ∧
      s2.camera_rot_x = s.camera_rot_x ∧
      s2.camera_rot_y = s.camera_rot_y ∧
      s2.camera_pos = s.camera_pos ∧
      s2.alpha = s.alpha ∧ s2.alpha_direction = s.alpha_direction) ∧
    (∀ s : Scene, (s.keyboard "h").bind (fun s1 => s1.keyboard "h") = some s) := by
  have hh : ∀ s : Scene,
      s.keyboard "h" = some { s with show_help := !s.show_help } :=
    fun s => rfl
  refine ⟨hh, ?_, ?_⟩
  · intro s s2 h
    rw [hh s] at h
    simp only [Option.some.injEq] at h
    subst h
    exact ⟨rfl, rfl, rfl, rfl, rfl, rfl, rfl, rfl, rfl, rfl⟩
  · intro s
    have hnn : (!(!s.show_help)) = s.show_help := Bool.not_not s.show_help
    rw [hh s, Option.some_bind, hh, hnn]

/-- Witness for C7 at a concrete input. -/
theorem claim_C7_witness :
    ({ initScene with show_help := !initScene.show_help } : Scene).show_help
        = !initScene.show_help ∧
    ({ initScene with show_help := !initScene.show_help } : Scene).light_pos
        = initScene.light_pos := by
  have h := claim_C7_toggle_help.2.1 initScene
    { initScene with show_help := !initScene.show_help } rfl
  exact ⟨h.1, h.2.1⟩

/-- **C8**: for every event sequence from the initial state
(`light_color = [1.0, 1.0, 1.0]`) each component of `light_color` stays
in `[0.0, 1.0]`; keys `r`/`g`/`b` set the respective component to
`min(1.0, old + 0.1)` and `R`/`G`/`B` to `max(0.0, old - 0.1)`. -/
theorem claim_C8_light_color_clamped :
    (∀ (evs : List Event) (s : Scene), run initScene evs = some s →
      ∀ c ∈ s.light_color, 0 ≤ c ∧ c ≤ 1) ∧
    (∀ (s : Scene) (r g b : ℚ), s.light_color = [r, g, b] →
      s.keyboard "r" = some { s with light_color := [min 1.0 (r + 0.1), g, b] } ∧
      s.keyboard "R" = some { s with light_color := [max 0.0 (r - 0.1), g, b] } ∧
      s.keyboard "g" = some { s with light_color := [r, min 1.0 (g + 0.1), b] } ∧
      s.keyboard "G" = some { s with light_color := [r, max 0.0 (g - 0.1), b] } ∧
      s.keyboard "b" = some { s with light_color := [r, g, min 1.0 (b + 0.1)] } ∧
      s.keyboard "B" = some { s with light_color := [r, g, max 0.0 (b - 0.1)] }) := by
  constructor
  · intro evs s h
    have hinv := run_inv_of_eq evs initScene s initScene_inv h
    exact hinv.2.2.2.2.1.2
  · intro s r g b hlc
    refine ⟨?_, ?_, ?_, ?_, ?_, ?_⟩
    · have h1 : s.keyboard "r"
          = (listModify s.light_color 0 (fun v => min 1.0 (v + 0.1))).map
              (fun l => { s with light_color := l }) := rfl
      rw [h1, hlc]; rfl
    · have h1 : s.keyboard "R"
          = (listModify s.light_color 0 (fun v => max 0.0 (v - 0.1))).map
              (fun l => { s with light_color := l }) := rfl
      rw [h1, hlc]; rfl
    · have h1 : s.keyboard "g"
          = (listModify s.light_color 1 (fun v => min 1.0 (v + 0.1))).map
              (fun l => { s with light_color := l }) := rfl
      rw [h1, hlc]; rfl
    · have h1 : s.keyboard "G"
          = (listModify s.light_color 1 (fun v => max 0.0 (v - 0.1))).map
              (fun l => { s with light_color := l }) := rfl
      rw [h1, hlc]; rfl
    · have h1 : s.keyboard "b"
          = (listModify s.light_color 2 (fun v => min 1.0 (v + 0.1))).map
              (fun l => { s with light_color := l }) := rfl
      rw [h1, hlc]; rfl
    · have h1 : s.keyboard "B"
          = (listModify s.light_color 2 (fun v => max 0.0 (v - 0.1))).map
              (fun l => { s with light_color := l }) := rfl
      rw [h1, hlc]; rfl

/-- Witness for C8 at concrete inputs. -/
theorem claim_C8_witness :
    (∀ c ∈ initScene.light_color, 0 ≤ c ∧ c ≤ 1) ∧
    initScene.keyboard "r" = some
      { initScene with light_color := [min 1.0 ((1.0 : ℚ) + 0.1), 1.0, 1.0] } :=
  ⟨claim_C8_light_color_clamped.1 [] initScene rfl,
   (claim_C8_light_color_clamped.2 initScene 1.0 1.0 1.0 rfl).1⟩

/-- **C9**: the diffuse and specular lists `update_light` passes to the
light both equal `[c * light_intensity for c in light_color]`, so
intensity scales the colour multiplicatively and diffuse always equals
specular. -/
theorem claim_C9_update_light :
    ∀ s : Scene,
      s.update_light.diffuse
          = s.light_color.map (fun c => c * s.light_intensity) ∧
      s.update_light.specular
          = s.light_color.map (fun c => c * s.light_intensity) ∧
      s.update_light.diffuse = s.update_light.specular ∧
      s.update_light.position = s.light_pos :=
  fun s => ⟨rfl, rfl, rfl, rfl⟩

/-- **C10**: when `motion` runs while `mouse_prev_pos` is `None` it only
records the cursor position and returns, leaving `camera_rot_x`,
`camera_rot_y` and `camera_pos` unchanged. -/
theorem claim_C10_motion_first :
    ∀ (s : Scene) (x y : ℤ), s.mouse_prev_pos = none →
      s.motion x y = some { s with mouse_prev_pos := some (x, y) } ∧
      ∀ s2 : Scene, s.motion x y = some s2 →
        s2.camera_rot_x = s.camera_rot_x ∧ s2.camera_rot_y = s.camera_rot_y ∧
        s2.camera_pos = s.camera_pos ∧ s2.mouse_prev_pos = some (x, y) := by
  intro s x y h
  have hm : s.motion x y = some { s with mouse_prev_pos := some (x, y) } := by
    simp only [Scene.motion, h]
  refine ⟨hm, ?_⟩
  intro s2 h2
  rw [hm] at h2
  simp only [Option.some.injEq] at h2
  subst h2
  exact ⟨rfl, rfl, rfl, rfl⟩

/-- Witness for C10 at a concrete input. -/
theorem claim_C10_witness :
    initScene.motion 3 4 = some { initScene with mouse_prev_pos := some (3, 4) } :=
  (claim_C10_motion_first initScene 3 4 rfl).1
